import Mathlib

/-!
Shallow embedding of the download-polling utilities of this repository
(`file_operations/waitforfile.py` and `file_operations/get_latest_file.py`).

The filesystem is modelled by an environment `Env`: the directory listing is a
function of the polling-iteration index `t` (iteration `t` runs after `t`
sleeps of `check_interval` seconds, so the loop guard `time.time() - start_time
< timeout` becomes `t * check_interval < timeout`), and the outcome of the
`open(file_path, "rb")` probe is a function of the iteration and the path
(`none` = the open succeeds, `some e` = the open raises `e`).  Creation times
(`os.path.getctime`) are carried in the environment even though
`wait_for_download` never consults them, so that claims about creation-time
tie-breaking can be stated.  Every filesystem touch is recorded in a trace of
`Effect`s.  `set` values of the Python source are represented as lists of
distinct directory-entry names; the iteration order of a Python `set` is
unspecified, and the embedding fixes it to the listing order.
-/

/-- Python exceptions relevant to the source: `FileNotFoundError` (raised by
`os.listdir` on a missing directory, or by `open` on a vanished file),
`PermissionError` (raised by `open` on an exclusively locked file, and the only
exception the source catches), and any other exception. -/
inductive PyExc where
  | fileNotFoundError (path : String)
  | permissionError (path : String)
  | otherError (msg : String)
deriving DecidableEq, Repr

/-- Outcome of a call to `wait_for_download`: a returned path, the `None`
timeout value, or a propagated Python exception. -/
inductive WaitResult where
  | found (path : String)
  | timedOut
  | exn (e : PyExc)
deriving DecidableEq, Repr

/-- Filesystem effects a Python function could perform.  The mutating
constructors (`moveFile`, `deleteFile`, `renameFile`) are included so that the
frame claim — the watcher only lists and probes — is not true by typing alone. -/
inductive Effect where
  | listDir (folder : String)
  | openProbe (path : String)
  | moveFile (src dst : String)
  | deleteFile (path : String)
  | renameFile (src dst : String)
deriving DecidableEq, Repr

/-- The filesystem as seen by `wait_for_download`: whether `folder_path`
exists, the listing at each polling iteration, the outcome of an open probe at
each iteration, and creation times of entries. -/
structure Env where
  dirExists : Bool
  listing : Nat → List String
  openRes : Nat → String → Option PyExc
  ctime : String → Nat

/-- `os.path.join(a, b)` for a relative name `b` (separator fixed to `/`). -/
def os_path_join (a b : String) : String := a ++ "/" ++ b

/-- `f.endswith(s)` on the character sequence of the strings. -/
def py_endswith (f s : String) : Bool := s.data.isSuffixOf f.data

/-- The in-progress-download suffixes skipped at line 55 of
`waitforfile.py`: `('.crdownload', '.part', '.tmp')`. -/
def temp_suffixes : List String := [".crdownload", ".part", ".tmp"]

/-- `f.endswith(('.crdownload', '.part', '.tmp'))`. -/
def is_temp_name (f : String) : Bool := temp_suffixes.any (fun s => py_endswith f s)

/-- `True` exactly for the `PermissionError` class, the only exception caught
by the `except PermissionError: pass` handlers. -/
def isPermissionError : PyExc → Bool
  | .permissionError _ => true
  | _ => false

/-- `os.listdir(folder_path)` at iteration `t`: the current entries, or
`FileNotFoundError` when the directory does not exist. -/
def os_listdir (env : Env) (t : Nat) (folder_path : String) : Except PyExc (List String) :=
  if env.dirExists then .ok (env.listing t) else .error (.fileNotFoundError folder_path)

/-- `new_files = current_files - before_files` (line 52): the entries of
`current` that are not in `before`. -/
def new_files (before current : List String) : List String :=
  current.filter (fun f => !(before.contains f))

/-- `valid_files = [f for f in new_files if not f.endswith(('.crdownload',
'.part', '.tmp'))]` (line 55). -/
def valid_files (before current : List String) : List String :=
  (new_files before current).filter (fun f => !(is_temp_name f))

/-- Python truthiness of the `before_files` argument: falsy when `None` or an
empty collection. -/
def py_truthy_list : Option (List String) → Bool
  | none => false
  | some l => !l.isEmpty

/-- Line 46: `before_files = set(before_files) if before_files else
set(os.listdir(folder_path))` — the effective baseline, or the exception the
initial `os.listdir` raises. -/
def initial_before (env : Env) (folder_path : String) (before_files : Option (List String)) :
    Except PyExc (List String) :=
  if py_truthy_list before_files then .ok (before_files.getD [])
  else os_listdir env 0 folder_path

/-- Effects of computing the baseline: a listing only when `before_files` is
falsy. -/
def baseline_effects (before_files : Option (List String)) (folder_path : String) : List Effect :=
  if py_truthy_list before_files then [] else [.listDir folder_path]

/-- Lines 70–76: `for f in valid_files: try: open(...) → return file_path
except PermissionError: pass`; any other exception propagates. `none` in the
first component means the loop ran off the end of the list (fall through to
the sleep). -/
def probe_candidates (env : Env) (folder_path : String) (t : Nat) :
    List String → Option WaitResult × List Effect
  | [] => (none, [])
  | f :: rest =>
    match env.openRes t (os_path_join folder_path f) with
    | none => (some (.found (os_path_join folder_path f)), [.openProbe (os_path_join folder_path f)])
    | some (.permissionError _) =>
      ((probe_candidates env folder_path t rest).1,
        .openProbe (os_path_join folder_path f) :: (probe_candidates env folder_path t rest).2)
    | some e => (some (.exn e), [.openProbe (os_path_join folder_path f)])

/-- The `else` branch for an unset (or empty, hence falsy) `file_name`:
probe every valid candidate in order (lines 69–76). -/
def any_file_step (env : Env) (folder_path : String) (t : Nat) (valid : List String) :
    Option WaitResult × List Effect :=
  ((probe_candidates env folder_path t valid).1,
    .listDir folder_path :: (probe_candidates env folder_path t valid).2)

/-- Lines 61–68: the branch for a truthy `file_name` — probe exactly
`os.path.join(folder_path, file_name)`, and only when `file_name` is among the
valid candidates; `PermissionError` falls through to the sleep, anything else
propagates. -/
def named_file_step (env : Env) (folder_path : String) (t : Nat) (valid : List String)
    (name : String) : Option WaitResult × List Effect :=
  if valid.contains name then
    match env.openRes t (os_path_join folder_path name) with
    | none => (some (.found (os_path_join folder_path name)),
        [.listDir folder_path, .openProbe (os_path_join folder_path name)])
    | some (.permissionError _) =>
      (none, [.listDir folder_path, .openProbe (os_path_join folder_path name)])
    | some e => (some (.exn e),
        [.listDir folder_path, .openProbe (os_path_join folder_path name)])
  else (none, [.listDir folder_path])

/-- One iteration of the `while` body (lines 51–76): list the directory,
compute `new_files` and `valid_files`, and either return a result (`some r`)
or fall through to `time.sleep(check_interval)` (`none`), together with the
filesystem effects performed. -/
def stepAt (env : Env) (folder_path : String) (before : List String)
    (file_name : Option String) (t : Nat) : Option WaitResult × List Effect :=
  match os_listdir env t folder_path with
  | .error e => (some (.exn e), [.listDir folder_path])
  | .ok current =>
    if (valid_files before current).isEmpty then (none, [.listDir folder_path])
    else
      match file_name with
      | some name =>
        if name.data.isEmpty then any_file_step env folder_path t (valid_files before current)
        else named_file_step env folder_path t (valid_files before current) name
      | none => any_file_step env folder_path t (valid_files before current)

/-- The `while time.time() - start_time < timeout` loop (lines 50–81), with
elapsed time idealised to `t * check_interval` after `t` sleeps.  The fuel
argument is structural bookkeeping only: the top-level call passes
`timeout + 1`, which the guard can never outlive when `check_interval ≥ 1`. -/
def wait_loop (env : Env) (folder_path : String) (before : List String)
    (file_name : Option String) (timeout check_interval : Nat) :
    Nat → Nat → WaitResult × List Effect
  | 0, _ => (.timedOut, [])
  | fuel + 1, t =>
    if t * check_interval < timeout then
      match (stepAt env folder_path before file_name t).1 with
      | some r => (r, (stepAt env folder_path before file_name t).2)
      | none =>
        ((wait_loop env folder_path before file_name timeout check_interval fuel (t + 1)).1,
          (stepAt env folder_path before file_name t).2
            ++ (wait_loop env folder_path before file_name timeout check_interval fuel (t + 1)).2)
    else (.timedOut, [])

/-- `wait_for_download` (lines 29–81 of `waitforfile.py`), returning the
result together with the trace of filesystem effects. -/
def wait_for_download (env : Env) (folder_path : String) (before_files : Option (List String))
    (file_name : Option String) (timeout check_interval : Nat) :
    WaitResult × List Effect :=
  match initial_before env folder_path before_files with
  | .error e => (.exn e, baseline_effects before_files folder_path)
  | .ok before =>
    ((wait_loop env folder_path before file_name timeout check_interval (timeout + 1) 0).1,
      baseline_effects before_files folder_path
        ++ (wait_loop env folder_path before file_name timeout check_interval (timeout + 1) 0).2)

/-- The directory seen by `get_latest_file`: existence, directory-ness, the
entries, which full paths are regular files, and modification times. -/
structure DirEnv where
  pathExists : Bool
  isDir : Bool
  entries : List String
  isFile : String → Bool
  mtime : String → Nat

/-- `files = [path.join(directory, f) for f in listdir(directory) if
path.isfile(path.join(directory, f))]` (line 22 of `get_latest_file.py`). -/
def listed_files (env : DirEnv) (directory : String) : List String :=
  (env.entries.map (fun f => os_path_join directory f)).filter (fun p => env.isFile p)

/-- Python's `max(l, key=key)` on a nonempty list: the first element whose key
is maximal (the running maximum is replaced only on a strictly greater key). -/
def py_max_by (key : String → Nat) : List String → Option String
  | [] => none
  | x :: xs => some (xs.foldl (fun acc y => if key acc < key y then y else acc) x)

/-- `get_latest_file` (lines 6–30 of `get_latest_file.py`). -/
def get_latest_file (env : DirEnv) (directory : String) : Option String :=
  if !env.pathExists || !env.isDir then none
  else
    if (listed_files env directory).isEmpty then none
    else py_max_by env.mtime (listed_files env directory)

/-- Read-only effects: directory listings and open probes. -/
def is_read_effect : Effect → Bool
  | .listDir _ => true
  | .openProbe _ => true
  | _ => false

/-- Open-probe effects (a candidate being examined). -/
def is_probe_effect : Effect → Bool
  | .openProbe _ => true
  | _ => false

-- Concrete environments used by witnesses and counterexamples.

/-- Two qualifying candidates appear at once, both openable, `c.txt` created
later than `b.txt`; the baseline `["seed"]` is supplied and truthy. -/
def C1cex : Env where
  dirExists := true
  listing := fun _ => ["b.txt", "c.txt", "seed"]
  openRes := fun _ _ => none
  ctime := fun f => if f = "c.txt" then 5 else 1

/-- A directory that does not exist. -/
def noDirEnv : Env where
  dirExists := false
  listing := fun _ => []
  openRes := fun _ _ => none
  ctime := fun _ => 0

/-- The expected file is present from the start but every open attempt on it
raises `PermissionError`. -/
def C4env : Env where
  dirExists := true
  listing := fun _ => ["r.pdf"]
  openRes := fun _ p => if p = os_path_join "dl" "r.pdf" then some (.permissionError p) else none
  ctime := fun _ => 0

/-- A single qualifying candidate `r.csv` appears at iteration 2. -/
def C5env : Env where
  dirExists := true
  listing := fun t => if 2 ≤ t then ["old", "r.csv"] else ["old"]
  openRes := fun _ _ => none
  ctime := fun _ => 0

/-- The directory never gains a new entry relative to the call-start
snapshot. -/
def C8env : Env where
  dirExists := true
  listing := fun _ => ["old.txt"]
  openRes := fun _ _ => none
  ctime := fun _ => 0

/-- The only candidate vanishes between the listing and the open: the probe
raises `FileNotFoundError`, which the source does not catch. -/
def C9env : Env where
  dirExists := true
  listing := fun _ => ["g.txt"]
  openRes := fun _ _ => some (.fileNotFoundError (os_path_join "dl" "g.txt"))
  ctime := fun _ => 0

/-- A path that `os.path.exists` rejects. -/
def C10badEnv : DirEnv where
  pathExists := false
  isDir := false
  entries := []
  isFile := fun _ => false
  mtime := fun _ => 0

-- Infrastructure lemmas about the embedding.

/-- Joining the same folder with two names gives equal paths only for equal
names. -/
lemma os_path_join_inj (folder a b : String)
    (h : os_path_join folder a = os_path_join folder b) : a = b := by
  have hd := congrArg String.data h
  simp only [os_path_join] at hd
  rw [show ((folder ++ "/") ++ a).data = (folder ++ "/").data ++ a.data from rfl,
      show ((folder ++ "/") ++ b).data = (folder ++ "/").data ++ b.data from rfl] at hd
  exact String.ext (List.append_cancel_left hd)

/-- Membership in `valid_files`: present now, absent from the baseline, and
not carrying an in-progress suffix. -/
lemma mem_valid_files {before current : List String} {f : String} :
    f ∈ valid_files before current ↔
      f ∈ current ∧ f ∉ before ∧ is_temp_name f = false := by
  simp [valid_files, new_files, List.mem_filter, List.elem_iff]
  tauto

/-- An iteration whose `valid_files` is empty falls through to the sleep. -/
lemma stepAt_none_of_valid_nil (env : Env) (folder : String) (before : List String)
    (fname : Option String) (t : Nat) (hdir : env.dirExists = true)
    (hvalid : valid_files before (env.listing t) = []) :
    (stepAt env folder before fname t).1 = none := by
  simp [stepAt, os_listdir, hdir, hvalid]

/-- The named branch falls through to the sleep when every open attempt on
the expected file raises `PermissionError`. -/
lemma named_none_of_perm (env : Env) (folder : String) (t : Nat) (valid : List String)
    (name : String)
    (hperm : ∃ q, env.openRes t (os_path_join folder name) = some (.permissionError q)) :
    (named_file_step env folder t valid name).1 = none := by
  obtain ⟨q, hq⟩ := hperm
  by_cases hm : name ∈ valid
  · simp [named_file_step, hm, hq]
  · simp [named_file_step, hm]

/-- If every iteration falls through to the sleep, the loop returns the
timeout value. -/
lemma wait_loop_timedOut (env : Env) (folder : String) (before : List String)
    (fname : Option String) (timeout ci : Nat)
    (hnone : ∀ t, (stepAt env folder before fname t).1 = none) :
    ∀ fuel t, (wait_loop env folder before fname timeout ci fuel t).1 = .timedOut := by
  intro fuel
  induction fuel with
  | zero => intro t; simp [wait_loop]
  | succ n ih =>
    intro t
    simp only [wait_loop]
    split
    · rw [hnone t]
      simpa using ih (t + 1)
    · rfl

/-- If every iteration before `t0` falls through and iteration `t0` returns
`r` while the guard still holds, the loop's value is `r`. -/
lemma wait_loop_runs_to (env : Env) (folder : String) (before : List String)
    (fname : Option String) (timeout ci : Nat) (r : WaitResult) :
    ∀ fuel t t0, t ≤ t0 → t0 * ci < timeout → t0 - t < fuel →
      (∀ u, t ≤ u → u < t0 → (stepAt env folder before fname u).1 = none) →
      (stepAt env folder before fname t0).1 = some r →
      (wait_loop env folder before fname timeout ci fuel t).1 = r := by
  intro fuel
  induction fuel with
  | zero => intro t t0 _ _ h3 _ _; omega
  | succ n ih =>
    intro t t0 hle hT hfuel hnone hsome
    have hguard : t * ci < timeout := lt_of_le_of_lt (Nat.mul_le_mul_right ci hle) hT
    by_cases he : t = t0
    · subst he
      simp only [wait_loop, if_pos hguard, hsome]
    · have hlt : t < t0 := lt_of_le_of_ne hle he
      simp only [wait_loop, if_pos hguard, hnone t le_rfl hlt]
      exact ih (t + 1) t0 hlt hT (by omega) (fun u hu1 hu2 => hnone u (by omega) hu2) hsome

/-- A path reported by the candidate loop is the join of the folder with one
of the probed candidates. -/
lemma probe_found_inv (env : Env) (folder : String) (t : Nat) :
    ∀ (l : List String) (p : String),
      (probe_candidates env folder t l).1 = some (.found p) →
      ∃ f, f ∈ l ∧ p = os_path_join folder f := by
  intro l
  induction l with
  | nil => intro p h; simp [probe_candidates] at h
  | cons f rest ih =>
    intro p h
    cases ho : env.openRes t (os_path_join folder f) with
    | none =>
      simp [probe_candidates, ho] at h
      exact ⟨f, List.mem_cons_self f rest, h.symm⟩
    | some e =>
      cases e with
      | permissionError q =>
        simp only [probe_candidates, ho] at h
        obtain ⟨g, hg, hp⟩ := ih p h
        exact ⟨g, List.mem_cons_of_mem f hg, hp⟩
      | fileNotFoundError q => simp [probe_candidates, ho] at h
      | otherError m => simp [probe_candidates, ho] at h

/-- A path reported by the named branch is the join of the folder with the
expected name, and the name is among the valid candidates. -/
lemma named_found_inv (env : Env) (folder : String) (t : Nat) (valid : List String)
    (name p : String)
    (h : (named_file_step env folder t valid name).1 = some (.found p)) :
    ∃ f, f ∈ valid ∧ p = os_path_join folder f := by
  by_cases hm : name ∈ valid
  · cases ho : env.openRes t (os_path_join folder name) with
    | none =>
      simp [named_file_step, hm, ho] at h
      exact ⟨name, hm, h.symm⟩
    | some e => cases e <;> simp [named_file_step, hm, ho] at h
  · simp [named_file_step, hm] at h

/-- A path reported by one iteration comes from a valid candidate of that
iteration. -/
lemma stepAt_found_inv (env : Env) (folder : String) (before : List String)
    (fname : Option String) (t : Nat) (p : String)
    (h : (stepAt env folder before fname t).1 = some (.found p)) :
    ∃ f, f ∈ valid_files before (env.listing t) ∧ p = os_path_join folder f := by
  cases hdir : env.dirExists
  · simp [stepAt, os_listdir, hdir] at h
  · cases hval : (valid_files before (env.listing t)).isEmpty
    · simp only [stepAt, os_listdir, hdir, if_true, hval, Bool.false_eq_true, if_false] at h
      cases fname with
      | none => exact probe_found_inv env folder t _ p h
      | some name =>
        cases hne : name.data.isEmpty
        · simp only [hne, Bool.false_eq_true, if_false] at h
          exact named_found_inv env folder t _ name p h
        · simp only [hne, if_true] at h
          exact probe_found_inv env folder t _ p h
    · simp [stepAt, os_listdir, hdir, hval] at h

/-- A path reported by the loop comes from a valid candidate of some
iteration. -/
lemma wait_loop_found_inv (env : Env) (folder : String) (before : List String)
    (fname : Option String) (timeout ci : Nat) :
    ∀ fuel t p, (wait_loop env folder before fname timeout ci fuel t).1 = .found p →
      ∃ u f, f ∈ valid_files before (env.listing u) ∧ p = os_path_join folder f := by
  intro fuel
  induction fuel with
  | zero => intro t p h; simp [wait_loop] at h
  | succ n ih =>
    intro t p h
    simp only [wait_loop] at h
    by_cases hg : t * ci < timeout
    · rw [if_pos hg] at h
      cases hs : (stepAt env folder before fname t).1 with
      | some r =>
        rw [hs] at h
        simp only at h
        rw [h] at hs
        obtain ⟨f, hf, hp⟩ := stepAt_found_inv env folder before fname t p hs
        exact ⟨t, f, hf, hp⟩
      | none =>
        rw [hs] at h
        simp only at h
        exact ih (t + 1) p h
    · rw [if_neg hg] at h
      simp at h

/-- A path reported by `wait_for_download` comes from a valid candidate of
some iteration, relative to the effective baseline. -/
lemma wfd_found_inv (env : Env) (folder : String) (bf : Option (List String))
    (fname : Option String) (timeout ci : Nat) (p : String)
    (h : (wait_for_download env folder bf fname timeout ci).1 = .found p) :
    ∃ before u f, initial_before env folder bf = .ok before ∧
      f ∈ valid_files before (env.listing u) ∧ p = os_path_join folder f := by
  unfold wait_for_download at h
  cases hb : initial_before env folder bf with
  | error e => rw [hb] at h; simp at h
  | ok before =>
    rw [hb] at h
    simp only at h
    obtain ⟨u, f, hf, hp⟩ := wait_loop_found_inv env folder before fname timeout ci _ 0 p h
    exact ⟨before, u, f, rfl, hf, hp⟩

/-- Every effect of the candidate loop is an open probe. -/
lemma probe_effects (env : Env) (folder : String) (t : Nat) :
    ∀ (l : List String) (e : Effect), e ∈ (probe_candidates env folder t l).2 →
      ∃ p, e = .openProbe p := by
  intro l
  induction l with
  | nil => intro e he; simp [probe_candidates] at he
  | cons f rest ih =>
    intro e he
    cases ho : env.openRes t (os_path_join folder f) with
    | none =>
      simp [probe_candidates, ho] at he
      exact ⟨_, he⟩
    | some ex =>
      cases ex with
      | permissionError q =>
        simp only [probe_candidates, ho, List.mem_cons] at he
        rcases he with he | he
        · exact ⟨_, he⟩
        · exact ih e he
      | fileNotFoundError q =>
        simp [probe_candidates, ho] at he
        exact ⟨_, he⟩
      | otherError m =>
        simp [probe_candidates, ho] at he
        exact ⟨_, he⟩

/-- Every effect of the unset-name branch is a listing or a probe. -/
lemma any_effects (env : Env) (folder : String) (t : Nat) (valid : List String) (e : Effect)
    (h : e ∈ (any_file_step env folder t valid).2) :
    e = .listDir folder ∨ ∃ p, e = .openProbe p := by
  simp only [any_file_step, List.mem_cons] at h
  rcases h with h | h
  · exact Or.inl h
  · exact Or.inr (probe_effects env folder t valid e h)

/-- Every effect of the named branch is a listing or a probe. -/
lemma named_effects (env : Env) (folder : String) (t : Nat) (valid : List String)
    (name : String) (e : Effect)
    (h : e ∈ (named_file_step env folder t valid name).2) :
    e = .listDir folder ∨ ∃ p, e = .openProbe p := by
  by_cases hm : name ∈ valid
  · cases ho : env.openRes t (os_path_join folder name) with
    | none =>
      simp [named_file_step, hm, ho] at h
      rcases h with h | h
      · exact Or.inl h
      · exact Or.inr ⟨_, h⟩
    | some ex =>
      cases ex <;> simp [named_file_step, hm, ho] at h <;> rcases h with h | h <;>
        first
          | exact Or.inl h
          | exact Or.inr ⟨_, h⟩
  · simp [named_file_step, hm] at h
    exact Or.inl h

/-- Every effect of one iteration is a listing or a probe. -/
lemma stepAt_effects (env : Env) (folder : String) (before : List String)
    (fname : Option String) (t : Nat) (e : Effect)
    (h : e ∈ (stepAt env folder before fname t).2) :
    e = .listDir folder ∨ ∃ p, e = .openProbe p := by
  cases hdir : env.dirExists
  · simp [stepAt, os_listdir, hdir] at h
    exact Or.inl h
  · cases hval : (valid_files before (env.listing t)).isEmpty
    · simp only [stepAt, os_listdir, hdir, if_true, hval, Bool.false_eq_true, if_false] at h
      cases fname with
      | none => exact any_effects env folder t _ e h
      | some name =>
        cases hne : name.data.isEmpty
        · simp only [hne, Bool.false_eq_true, if_false] at h
          exact named_effects env folder t _ name e h
        · simp only [hne, if_true] at h
          exact any_effects env folder t _ e h
    · simp [stepAt, os_listdir, hdir, hval] at h
      exact Or.inl h

/-- Every effect of the polling loop is a listing or a probe. -/
lemma wait_loop_effects (env : Env) (folder : String) (before : List String)
    (fname : Option String) (timeout ci : Nat) :
    ∀ fuel t e, e ∈ (wait_loop env folder before fname timeout ci fuel t).2 →
      e = .listDir folder ∨ ∃ p, e = .openProbe p := by
  intro fuel
  induction fuel with
  | zero => intro t e h; simp [wait_loop] at h
  | succ n ih =>
    intro t e h
    simp only [wait_loop] at h
    by_cases hg : t * ci < timeout
    · rw [if_pos hg] at h
      cases hs : (stepAt env folder before fname t).1 with
      | some r =>
        rw [hs] at h
        simp only at h
        exact stepAt_effects env folder before fname t e h
      | none =>
        rw [hs] at h
        simp only [List.mem_append] at h
        rcases h with h | h
        · exact stepAt_effects env folder before fname t e h
        · exact ih (t + 1) e h
    · rw [if_neg hg] at h
      simp at h

/-- Every effect of the baseline computation is a listing. -/
lemma baseline_effects_mem (bf : Option (List String)) (folder : String) (e : Effect)
    (h : e ∈ baseline_effects bf folder) : e = .listDir folder := by
  cases hb : py_truthy_list bf
  · simp [baseline_effects, hb] at h
    exact h
  · simp [baseline_effects, hb] at h

/-- Python's keyed `max` on a nonempty list returns a member whose key is
maximal. -/
lemma key_le_select (key : String → Nat) (a y : String) :
    key a ≤ key (if key a < key y then y else a)
      ∧ key y ≤ key (if key a < key y then y else a) := by
  by_cases hk : key a < key y <;> simp [hk] <;> omega

/-- `py_max_by` on a nonempty list yields a member with maximal key. -/
lemma py_max_by_spec (key : String → Nat) :
    ∀ (xs : List String) (a : String),
      ∃ m, py_max_by key (a :: xs) = some m ∧ m ∈ a :: xs ∧
        ∀ x ∈ a :: xs, key x ≤ key m := by
  intro xs
  induction xs with
  | nil =>
    intro a
    exact ⟨a, rfl, by simp, by simp⟩
  | cons y ys ih =>
    intro a
    obtain ⟨m, hm, hmem, hbound⟩ := ih (if key a < key y then y else a)
    simp only [py_max_by, Option.some.injEq] at hm
    refine ⟨m, ?_, ?_, ?_⟩
    · simp only [py_max_by, List.foldl_cons, Option.some.injEq]
      exact hm
    · rcases List.mem_cons.mp hmem with h | h
      · by_cases hk : key a < key y
        · rw [h, if_pos hk]; simp
        · rw [h, if_neg hk]; simp
      · simp [List.mem_cons, h]
    · intro x hx
      rcases List.mem_cons.mp hx with h | hx2
      · subst h
        exact le_trans (key_le_select key x y).1 (hbound _ (List.mem_cons_self _ _))
      · rcases List.mem_cons.mp hx2 with h | h
        · subst h
          exact le_trans (key_le_select key a x).2 (hbound _ (List.mem_cons_self _ _))
        · exact hbound x (List.mem_cons_of_mem _ h)

/-- Membership in the regular-file list built by `get_latest_file`. -/
lemma mem_listed_files {env : DirEnv} {directory p : String} :
    p ∈ listed_files env directory ↔
      (∃ f, f ∈ env.entries ∧ p = os_path_join directory f) ∧ env.isFile p = true := by
  simp only [listed_files, List.mem_filter, List.mem_map]
  constructor
  · rintro ⟨⟨f, hf, hp⟩, hfile⟩
    exact ⟨⟨f, hf, hp.symm⟩, hfile⟩
  · rintro ⟨⟨f, hf, hp⟩, hfile⟩
    exact ⟨⟨f, hf, hp.symm⟩, hfile⟩

-- Claim theorems.

/-- C1 counterexample: with `file_name` unset, two qualifying candidates
(`b.txt`, `c.txt`) present simultaneously, both openable, and `c.txt` created
strictly later, `wait_for_download` returns `b.txt` — the first candidate in
iteration order — not the candidate with the later creation time. -/
theorem C1_counterexample :
    C1cex.ctime "b.txt" < C1cex.ctime "c.txt"
    ∧ "b.txt" ∈ valid_files ["seed"] (C1cex.listing 0)
    ∧ "c.txt" ∈ valid_files ["seed"] (C1cex.listing 0)
    ∧ C1cex.openRes 0 (os_path_join "dl" "b.txt") = none
    ∧ C1cex.openRes 0 (os_path_join "dl" "c.txt") = none
    ∧ (wait_for_download C1cex "dl" (some ["seed"]) none 2 1).1
        = .found (os_path_join "dl" "b.txt")
    ∧ (wait_for_download C1cex "dl" (some ["seed"]) none 2 1).1
        ≠ .found (os_path_join "dl" "c.txt") := by decide

/-- C1 amended: when `file_name` is unset, `wait_for_download` returns the
first candidate in iteration order whose open probe succeeds — here, the head
of the valid-candidate list at the first iteration — irrespective of creation
times (the conclusion holds for every `env.ctime`). -/
theorem C1_amended (env : Env) (folder : String) (bf : Option (List String))
    (timeout ci : Nat) (before : List String) (f : String) (rest : List String)
    (hb : initial_before env folder bf = .ok before)
    (hdir : env.dirExists = true)
    (ht : 0 < timeout)
    (hvalid : valid_files before (env.listing 0) = f :: rest)
    (hopen : env.openRes 0 (os_path_join folder f) = none) :
    (wait_for_download env folder bf none timeout ci).1 = .found (os_path_join folder f) := by
  have hstep : (stepAt env folder before none 0).1 = some (.found (os_path_join folder f)) := by
    simp [stepAt, os_listdir, hdir, hvalid, any_file_step, probe_candidates, hopen]
  unfold wait_for_download
  rw [hb]
  exact wait_loop_runs_to env folder before none timeout ci _ (timeout + 1) 0 0 le_rfl
    (by simpa using ht) (by omega) (fun u hu1 hu2 => absurd hu2 (by omega)) hstep

/-- C1 amended, witnessed on the counterexample environment: the head
candidate `b.txt` is returned. -/
theorem C1_amended_witness :
    (wait_for_download C1cex "dl" (some ["seed"]) none 2 1).1
      = .found (os_path_join "dl" "b.txt") :=
  C1_amended C1cex "dl" (some ["seed"]) 2 1 ["seed"] "b.txt" ["c.txt"]
    rfl rfl (by decide) (by decide) rfl

/-- C2 counterexample: on a nonexistent folder, with a supplied non-empty
baseline and `timeout = 0`, `wait_for_download` performs no iteration and
returns the timeout value `None` — it does not fail with a not-found error. -/
theorem C2_counterexample :
    noDirEnv.dirExists = false
    ∧ (wait_for_download noDirEnv "d" (some ["x"]) none 0 1).1 = .timedOut := by decide

/-- C2 amended: on a nonexistent folder the first directory listing raises
`FileNotFoundError` — at call start when the baseline is falsy, or in the
first loop iteration (before any candidate probe) when a non-empty baseline
is supplied and the timeout is positive; with a supplied non-empty baseline
and `timeout = 0` the loop body never runs and the timeout value is returned
instead.  No candidate is ever probed. -/
theorem C2_amended (env : Env) (folder : String) (bf : Option (List String))
    (fname : Option String) (timeout ci : Nat) (h : env.dirExists = false) :
    (wait_for_download env folder bf fname timeout ci).1 =
      (if py_truthy_list bf = true ∧ timeout = 0 then WaitResult.timedOut
       else WaitResult.exn (.fileNotFoundError folder))
    ∧ ((wait_for_download env folder bf fname timeout ci).2).all
        (fun e => !(is_probe_effect e)) = true := by
  cases hb : py_truthy_list bf
  · constructor
    · simp [wait_for_download, initial_before, hb, os_listdir, h]
    · simp [wait_for_download, initial_before, hb, os_listdir, h, baseline_effects,
        is_probe_effect]
  · cases timeout with
    | zero =>
      constructor
      · simp [wait_for_download, initial_before, hb, wait_loop]
      · simp [wait_for_download, initial_before, hb, wait_loop, baseline_effects]
    | succ k =>
      constructor
      · simp [wait_for_download, initial_before, hb, wait_loop, stepAt, os_listdir, h]
      · simp [wait_for_download, initial_before, hb, wait_loop, stepAt, os_listdir, h,
          baseline_effects, is_probe_effect]

/-- C2 amended, witnessed: nonexistent folder, supplied baseline, positive
timeout — the first in-loop listing raises, and no probe happens. -/
theorem C2_amended_witness :
    (wait_for_download noDirEnv "d" (some ["x"]) none 5 1).1 =
      (if py_truthy_list (some ["x"]) = true ∧ 5 = 0 then WaitResult.timedOut
       else WaitResult.exn (.fileNotFoundError "d"))
    ∧ ((wait_for_download noDirEnv "d" (some ["x"]) none 5 1).2).all
        (fun e => !(is_probe_effect e)) = true :=
  C2_amended noDirEnv "d" (some ["x"]) none 5 1 rfl

/-- C3: a path returned by `wait_for_download` is the join of the folder with
a name that does not end in `.crdownload`, `.part` or `.tmp`. -/
theorem C3_no_temp_suffix (env : Env) (folder : String) (bf : Option (List String))
    (fname : Option String) (timeout ci : Nat) (f : String)
    (h : (wait_for_download env folder bf fname timeout ci).1 = .found (os_path_join folder f)) :
    is_temp_name f = false := by
  obtain ⟨before, u, g, hb, hg, hp⟩ := wfd_found_inv env folder bf fname timeout ci _ h
  have hfg : f = g := os_path_join_inj folder f g hp
  rw [hfg]
  exact (mem_valid_files.mp hg).2.2

/-- C3 witnessed at a call that returns `dl/b.txt`: the name carries no
in-progress suffix. -/
theorem C3_witness : is_temp_name "b.txt" = false :=
  C3_no_temp_suffix C1cex "dl" (some ["seed"]) none 2 1 "b.txt" (by decide)

/-- C4: with a truthy `file_name` whose every open attempt raises
`PermissionError`, each failure is swallowed and `wait_for_download` returns
the timeout value `None`, never an exception. -/
theorem C4_locked_times_out (env : Env) (folder : String) (bf : Option (List String))
    (name : String) (timeout ci : Nat) (before : List String)
    (hb : initial_before env folder bf = .ok before)
    (hdir : env.dirExists = true)
    (hname : name.data.isEmpty = false)
    (hperm : ∀ t, ∃ q, env.openRes t (os_path_join folder name)
        = some (.permissionError q)) :
    (wait_for_download env folder bf (some name) timeout ci).1 = .timedOut := by
  have hall : ∀ t, (stepAt env folder before (some name) t).1 = none := by
    intro t
    cases hval : (valid_files before (env.listing t)).isEmpty
    · simp only [stepAt, os_listdir, hdir, if_true, hval, Bool.false_eq_true, if_false, hname]
      exact named_none_of_perm env folder t _ name (hperm t)
    · simp [stepAt, os_listdir, hdir, hval]
  unfold wait_for_download
  rw [hb]
  exact wait_loop_timedOut env folder before (some name) timeout ci hall (timeout + 1) 0

/-- C4 witnessed: `r.pdf` is present throughout but always locked; the call
times out. -/
theorem C4_witness :
    (wait_for_download C4env "dl" (some ["x"]) (some "r.pdf") 3 1).1 = .timedOut :=
  C4_locked_times_out C4env "dl" (some ["x"]) "r.pdf" 3 1 ["x"] rfl rfl (by decide)
    (fun t => ⟨os_path_join "dl" "r.pdf", rfl⟩)

/-- C5: with `file_name` unset, if no candidate qualifies before iteration
`t0`, exactly one qualifying candidate `c` is valid at `t0` and its open
probe succeeds while the timeout window is still open, `wait_for_download`
returns `Found` with the folder joined with `c`. -/
theorem C5_unique_candidate (env : Env) (folder : String) (bf : Option (List String))
    (timeout ci : Nat) (before : List String) (t0 : Nat) (c : String)
    (hb : initial_before env folder bf = .ok before)
    (hdir : env.dirExists = true)
    (hci : 1 ≤ ci)
    (ht0 : t0 * ci < timeout)
    (hempty : ∀ u, u < t0 → valid_files before (env.listing u) = [])
    (hvalid : valid_files before (env.listing t0) = [c])
    (hopen : env.openRes t0 (os_path_join folder c) = none) :
    (wait_for_download env folder bf none timeout ci).1 = .found (os_path_join folder c) := by
  have hstep : (stepAt env folder before none t0).1 = some (.found (os_path_join folder c)) := by
    simp [stepAt, os_listdir, hdir, hvalid, any_file_step, probe_candidates, hopen]
  have hnone : ∀ u, 0 ≤ u → u < t0 → (stepAt env folder before none u).1 = none :=
    fun u _ hu => stepAt_none_of_valid_nil env folder before none u hdir (hempty u hu)
  have hfuel : t0 - 0 < timeout + 1 := by
    have := Nat.le_mul_of_pos_right t0 hci
    omega
  unfold wait_for_download
  rw [hb]
  exact wait_loop_runs_to env folder before none timeout ci _ (timeout + 1) 0 t0
    (Nat.zero_le _) ht0 hfuel hnone hstep

/-- C5 witnessed: the single candidate `r.csv` appears at iteration 2 and is
returned. -/
theorem C5_witness :
    (wait_for_download C5env "dl" none none 4 1).1 = .found (os_path_join "dl" "r.csv") :=
  C5_unique_candidate C5env "dl" none 4 1 ["old"] 2 "r.csv" rfl rfl le_rfl (by decide)
    (by intro u hu; interval_cases u <;> decide) (by decide) rfl

/-- C6: on every polling iteration the computed new-entry list is the set
difference of the current entries and the baseline: a name is in
`new_files B C` iff it is in `C` and not in `B`. -/
theorem C6_new_files_set_difference (B C : List String) (f : String) :
    f ∈ new_files B C ↔ f ∈ C ∧ f ∉ B := by
  simp [new_files, List.mem_filter, List.elem_iff]

/-- C7: every filesystem effect of `wait_for_download` is a directory listing
or a transient open probe — never a move, delete, or rename. -/
theorem C7_only_reads (env : Env) (folder : String) (bf : Option (List String))
    (fname : Option String) (timeout ci : Nat) (e : Effect)
    (he : e ∈ (wait_for_download env folder bf fname timeout ci).2) :
    is_read_effect e = true := by
  have hcase : e = .listDir folder ∨ ∃ p, e = .openProbe p := by
    unfold wait_for_download at he
    cases hb : initial_before env folder bf with
    | error ex =>
      rw [hb] at he
      simp only at he
      exact Or.inl (baseline_effects_mem bf folder e he)
    | ok before =>
      rw [hb] at he
      simp only [List.mem_append] at he
      rcases he with he | he
      · exact Or.inl (baseline_effects_mem bf folder e he)
      · exact wait_loop_effects env folder before fname timeout ci _ 0 e he
  rcases hcase with h | ⟨p, h⟩
  · rw [h]
    rfl
  · rw [h]
    rfl

/-- C7 witnessed: the listing performed by a concrete call is a read-only
effect. -/
theorem C7_witness : is_read_effect (Effect.listDir "dl") = true :=
  C7_only_reads C1cex "dl" (some ["seed"]) none 2 1 (Effect.listDir "dl") (by decide)

/-- C8: an explicitly empty `before_files` behaves exactly like an omitted
one — the falsy check replaces it with the call-start snapshot — and hence a
file already present at call start is never returned. -/
theorem C8_empty_baseline (env : Env) (folder : String) (fname : Option String)
    (timeout ci : Nat) :
    wait_for_download env folder (some []) fname timeout ci
      = wait_for_download env folder none fname timeout ci
    ∧ ∀ f, env.dirExists = true → f ∈ env.listing 0 →
        (wait_for_download env folder (some []) fname timeout ci).1
          ≠ .found (os_path_join folder f) := by
  constructor
  · rfl
  · intro f hdir hmem hfound
    obtain ⟨before, u, g, hb, hg, hp⟩ :=
      wfd_found_inv env folder (some []) fname timeout ci _ hfound
    have hbefore : before = env.listing 0 := by
      simp [initial_before, py_truthy_list, os_listdir, hdir] at hb
      exact hb.symm
    have hfg : f = g := os_path_join_inj folder f g hp
    have hnotmem := (mem_valid_files.mp hg).2.1
    apply hnotmem
    rw [hbefore, ← hfg]
    exact hmem

/-- C8 witnessed: `old.txt` is present at call start and is never the result
of a call with an explicitly empty baseline. -/
theorem C8_witness :
    (wait_for_download C8env "dl" (some []) none 2 1).1
      ≠ .found (os_path_join "dl" "old.txt") :=
  (C8_empty_baseline C8env "dl" none 2 1).2 "old.txt" rfl (by decide)

/-- C9: a probe failure other than `PermissionError` (for instance a
`FileNotFoundError` because the candidate vanished between the listing and
the open) propagates to the caller instead of being swallowed. -/
theorem C9_nonperm_propagates (env : Env) (folder : String) (bf : Option (List String))
    (timeout ci : Nat) (before : List String) (f : String) (rest : List String) (e : PyExc)
    (hb : initial_before env folder bf = .ok before)
    (hdir : env.dirExists = true)
    (ht : 0 < timeout)
    (hvalid : valid_files before (env.listing 0) = f :: rest)
    (hopen : env.openRes 0 (os_path_join folder f) = some e)
    (hnp : isPermissionError e = false) :
    (wait_for_download env folder bf none timeout ci).1 = .exn e := by
  have hstep : (stepAt env folder before none 0).1 = some (.exn e) := by
    cases e with
    | permissionError q => simp [isPermissionError] at hnp
    | fileNotFoundError q =>
      simp [stepAt, os_listdir, hdir, hvalid, any_file_step, probe_candidates, hopen]
    | otherError m =>
      simp [stepAt, os_listdir, hdir, hvalid, any_file_step, probe_candidates, hopen]
  unfold wait_for_download
  rw [hb]
  exact wait_loop_runs_to env folder before none timeout ci _ (timeout + 1) 0 0 le_rfl
    (by simpa using ht) (by omega) (fun u hu1 hu2 => absurd hu2 (by omega)) hstep

/-- C9 witnessed: the vanished candidate's `FileNotFoundError` reaches the
caller. -/
theorem C9_witness :
    (wait_for_download C9env "dl" (some ["x"]) none 2 1).1
      = .exn (.fileNotFoundError (os_path_join "dl" "g.txt")) :=
  C9_nonperm_propagates C9env "dl" (some ["x"]) 2 1 ["x"] "g.txt" []
    (.fileNotFoundError (os_path_join "dl" "g.txt")) rfl rfl (by decide) (by decide) rfl rfl

/-- C10: `get_latest_file` returns `None` when the directory does not exist,
is not a directory, or holds no regular files; otherwise it returns the
directory joined with the name of a regular file of maximal modification
time. -/
theorem C10_get_latest_file (env : DirEnv) (directory : String) :
    ((env.pathExists = false ∨ env.isDir = false ∨ listed_files env directory = []) →
      get_latest_file env directory = none)
    ∧ (env.pathExists = true → env.isDir = true → listed_files env directory ≠ [] →
        ∃ p, get_latest_file env directory = some p
          ∧ env.isFile p = true
          ∧ (∃ f, f ∈ env.entries ∧ p = os_path_join directory f)
          ∧ ∀ q, q ∈ listed_files env directory → env.mtime q ≤ env.mtime p) := by
  constructor
  · rintro (h | h | h)
    · simp [get_latest_file, h]
    · simp [get_latest_file, h]
    · simp [get_latest_file, h]
  · intro hex hdir hne
    cases hl : listed_files env directory with
    | nil => exact absurd hl hne
    | cons a xs =>
      obtain ⟨m, hm, hmem, hbound⟩ := py_max_by_spec env.mtime xs a
      have hmemL : m ∈ listed_files env directory := by rw [hl]; exact hmem
      refine ⟨m, ?_, (mem_listed_files.mp hmemL).2, (mem_listed_files.mp hmemL).1, ?_⟩
      · simp [get_latest_file, hex, hdir, hl, hm]
      · intro q hq
        exact hbound q hq

/-- C10 witnessed on a nonexistent path: the result is `None`. -/
theorem C10_witness : get_latest_file C10badEnv "d" = none :=
  (C10_get_latest_file C10badEnv "d").1 (Or.inl rfl)
